import Mathlib

/-!
Shallow embedding of the incremental investigation-graph visualization core
(stock-investigation frontend): node data model, label-based lane
classification, the branched layout algorithm `calculateNodePositions`,
edge resolution `getConnections`, viewport zoom/pan handlers, expansion
state, event ingestion, and session reset.  Each definition is translated
directly from the TypeScript/React source; theorems below settle the
frozen specification claims against these definitions.
-/

namespace StockViz

/-- Substring test: models JavaScript `String.prototype.includes`. -/
def strIncludes (s sub : String) : Bool :=
  decide (sub.toList <:+: s.toList)

/-- Node record delivered by the backend; models the `AgentNode` interface
(`types` module).  The payload `data` is modelled as an opaque key-value
bag of strings (the layout and classification code never reads payload
values, only key presence). -/
structure AgentNode where
  id : String
  type : String
  label : String
  description : String
  status : String
  data : List (String × String)
  parent_id : Option String
  children_ids : List String
  created_at : String
deriving DecidableEq, Repr

/-- The lanes into which `calculateNodePositions` groups nodes, plus
`unmatched` for nodes that fall through every branch of the if/else-if
chain (the source pushes such nodes into no group at all). -/
inductive Lane where
  | mainFlow
  | news
  | financial
  | market
  | validation
  | finalLane
  | unmatched
deriving DecidableEq, Repr

/-- Classification of one node, translated from the if/else-if chain in
`calculateNodePositions` (NodeVisualizationHorizontal.tsx, `nodes.forEach`):
first match wins, in source order. -/
def classifyNode (n : AgentNode) : Lane :=
  if strIncludes n.label "Price Data" || strIncludes n.label "Agent Decision" then
    Lane.mainFlow
  else if strIncludes n.label "News" || strIncludes n.label "Headlines" then
    Lane.news
  else if strIncludes n.label "Earnings" || strIncludes n.label "Financial" then
    Lane.financial
  else if strIncludes n.label "Market" || strIncludes n.label "Sector" then
    Lane.market
  else if n.type == "validation" then
    Lane.validation
  else if strIncludes n.label "Master" || strIncludes n.label "Final Analysis" then
    Lane.finalLane
  else
    Lane.unmatched

/-- Entry of the positions array produced by `calculateNodePositions`:
`{node, x, y, level, branch}`. -/
structure NodePosition where
  node : AgentNode
  x : ℚ
  y : ℚ
  level : ℕ
  branch : ℕ
deriving DecidableEq, Repr

/-- Indexed map over a list with explicit starting index; models a
JavaScript `forEach((item, index) => push(f(index, item)))` loop. -/
def forEachIdx (f : ℕ → α → β) : ℕ → List α → List β
  | _, [] => []
  | i, a :: as => f i a :: forEachIdx f (i + 1) as

/-- Layout of the main-flow group: `x = 100 + index*levelSpacing`,
`y = height/2`, `level = index`, `branch = 0`. -/
def mainFlowPositions (height : ℚ) (mainFlow : List AgentNode) : List NodePosition :=
  forEachIdx (fun i n =>
    { node := n, x := 100 + (i : ℚ) * 320, y := height / 2, level := i, branch := 0 })
    0 mainFlow

/-- Layout of one thematic branch (news / financial / market): levels start
at `currentLevel`, `y = height/2 + yOffset + index*40`. -/
def branchPositions (height : ℚ) (currentLevel : ℕ) (yOffset : ℚ) (branchIdx : ℕ)
    (lane : List AgentNode) : List NodePosition :=
  forEachIdx (fun i n =>
    { node := n, x := 100 + ((currentLevel + i : ℕ) : ℚ) * 320,
      y := height / 2 + yOffset + (i : ℚ) * 40,
      level := currentLevel + i, branch := branchIdx })
    0 lane

/-- Layout of the validation group: all at `validationLevel`, staggered
vertically by `branchSpacing = 140`. -/
def validationPositions (height : ℚ) (validationLevel : ℕ)
    (lane : List AgentNode) : List NodePosition :=
  forEachIdx (fun i n =>
    { node := n, x := 100 + (validationLevel : ℚ) * 320,
      y := height / 2 + (i : ℚ) * 140,
      level := validationLevel, branch := 0 })
    0 lane

/-- Layout of the final/synthesis group: one level past the validation
level, centered vertically. -/
def finalPositions (height : ℚ) (validationLevel : ℕ)
    (lane : List AgentNode) : List NodePosition :=
  forEachIdx (fun _ n =>
    { node := n, x := 100 + ((validationLevel + 1 : ℕ) : ℚ) * 320,
      y := height / 2,
      level := validationLevel + 1, branch := 0 })
    0 lane

/-- Nodes of `nodes` grouped into lane `l`, in arrival order (the source
builds the groups by one `forEach` push, which is a stable filter). -/
def laneNodes (l : Lane) (nodes : List AgentNode) : List AgentNode :=
  nodes.filter (fun n => classifyNode n == l)

/-- Count of main-flow nodes; this is the value of `currentLevel` after the
main-flow placement loop. -/
def mainFlowCount (nodes : List AgentNode) : ℕ :=
  (laneNodes Lane.mainFlow nodes).length

/-- Level reserved for validation nodes:
`currentLevel + Math.max(2, newsLen, financialLen, marketLen)`. -/
def validationLevelOf (nodes : List AgentNode) : ℕ :=
  mainFlowCount nodes +
    max 2 (max (laneNodes Lane.news nodes).length
      (max (laneNodes Lane.financial nodes).length
        (laneNodes Lane.market nodes).length))

/-- The branched layout algorithm, translated from `calculateNodePositions`
(NodeVisualizationHorizontal.tsx, lines 521-611).  `height` is
`dimensions.height`.  Nodes matching no group in `classifyNode` receive no
position. -/
def calculateNodePositions (height : ℚ) (nodes : List AgentNode) : List NodePosition :=
  if nodes.isEmpty then []
  else
    mainFlowPositions height (laneNodes Lane.mainFlow nodes)
    ++ branchPositions height (mainFlowCount nodes) (-200) 1 (laneNodes Lane.news nodes)
    ++ branchPositions height (mainFlowCount nodes) 0 2 (laneNodes Lane.financial nodes)
    ++ branchPositions height (mainFlowCount nodes) 200 3 (laneNodes Lane.market nodes)
    ++ validationPositions height (validationLevelOf nodes) (laneNodes Lane.validation nodes)
    ++ finalPositions height (validationLevelOf nodes) (laneNodes Lane.finalLane nodes)

/-- A 2-D point, endpoint of a rendered connection. -/
structure Point where
  x : ℚ
  y : ℚ
deriving DecidableEq, Repr

/-- One rendered connection; `fromPt`/`toPt` model the `from`/`to` fields of
the source's connection objects (`from` is reserved in Lean). -/
structure Connection where
  fromPt : Point
  toPt : Point
  type : String
deriving DecidableEq, Repr

/-- Connections contributed by one positioned node: a `parent` connection
when its `parent_id` resolves in the positions array, and one `validation`
connection per entry of `children_ids` that resolves.  Unresolved lookups
(`find` returning nothing) contribute no connection. -/
def connectionsFor (positions : List NodePosition) (p : NodePosition) : List Connection :=
  (match p.node.parent_id with
    | some pid =>
      match positions.find? (fun q => q.node.id == pid) with
      | some parentPos =>
        [{ fromPt := ⟨parentPos.x, parentPos.y⟩, toPt := ⟨p.x, p.y⟩, type := "parent" }]
      | none => []
    | none => [])
  ++ p.node.children_ids.filterMap (fun cid =>
      (positions.find? (fun q => q.node.id == cid)).map (fun childPos =>
        { fromPt := ⟨p.x, p.y⟩, toPt := ⟨childPos.x, childPos.y⟩, type := "validation" }))

/-- Edge resolution, translated from `getConnections`
(NodeVisualizationHorizontal.tsx, lines 616-647): iterate over the
positions array, pushing parent and child connections. -/
def getConnections (positions : List NodePosition) : List Connection :=
  positions.flatMap (connectionsFor positions)

/-- One WebSocket message, as consumed by `ws.onmessage` (the page
component): only the `type` tag and the carried node matter to the store. -/
structure UpdateEvent where
  type : String
  node : AgentNode
deriving DecidableEq, Repr

/-- Node-store transition of `ws.onmessage`: a `node_update` message appends
its node unconditionally (`setNodes(prev => [...prev, update.node])`);
other message types leave the store unchanged. -/
def ingestEvent (nodes : List AgentNode) (e : UpdateEvent) : List AgentNode :=
  if e.type == "node_update" then nodes ++ [e.node] else nodes

/-- Children query, translated from `getChildNodes`
(NodeVisualizationHorizontal.tsx, lines 40-42):
`nodes.filter(node => node.parent_id === parentId)`. -/
def getChildNodes (nodes : List AgentNode) (parentId : String) : List AgentNode :=
  nodes.filter (fun n => n.parent_id == some parentId)

/-- Viewport transform state `{scale, translateX, translateY}`. -/
structure ViewState where
  scale : ℚ
  translateX : ℚ
  translateY : ℚ
deriving DecidableEq, Repr

/-- Wheel-zoom handler of the branched component (`handleWheel`,
NodeVisualizationHorizontal.tsx lines 460-469): factor 0.9 when
`deltaY > 0`, 1.1 otherwise, result clamped to `[0.1, 3]`; only `scale`
is replaced. -/
def handleWheel (deltaYPos : Bool) (s : ViewState) : ViewState :=
  { s with scale := max (1/10) (min 3 (s.scale * (if deltaYPos then 9/10 else 11/10))) }

/-- Zoom-in button handler: `scale := Math.min(3, scale * 1.2)`. -/
def zoomIn (s : ViewState) : ViewState :=
  { s with scale := min 3 (s.scale * (12/10)) }

/-- Zoom-out button handler: `scale := Math.max(0.1, scale * 0.8)`. -/
def zoomOut (s : ViewState) : ViewState :=
  { s with scale := max (1/10) (s.scale * (8/10)) }

/-- Wheel-zoom handler of RealTimeAgentVisualization (lines 214-221):
factor 0.9 / 1.1 by `deltaY` sign, clamped to `[0.2, 2]`. -/
def rtHandleWheel (deltaYPos : Bool) (s : ViewState) : ViewState :=
  { s with scale := max (1/5) (min 2 (s.scale * (if deltaYPos then 9/10 else 11/10))) }

/-- One zoom operation of the branched component. -/
inductive ZoomOp where
  | wheel (deltaYPos : Bool)
  | zin
  | zout
deriving DecidableEq, Repr

/-- Apply one zoom operation. -/
def applyZoomOp (s : ViewState) (op : ZoomOp) : ViewState :=
  match op with
  | ZoomOp.wheel d => handleWheel d s
  | ZoomOp.zin => zoomIn s
  | ZoomOp.zout => zoomOut s

/-- Apply a sequence of zoom operations, left to right. -/
def applyZoomOps (s : ViewState) (ops : List ZoomOp) : ViewState :=
  ops.foldl applyZoomOp s

/-- Apply a sequence of RealTime wheel events (each a `deltaY > 0` flag). -/
def rtApplyWheels (s : ViewState) (ds : List Bool) : ViewState :=
  ds.foldl (fun t d => rtHandleWheel d t) s

/-- Expansion toggle, translated from `toggleNodeExpansion`
(NodeVisualizationHorizontal.tsx lines 16-26): delete the id if present in
the set, insert it otherwise.  The JavaScript `Set` is modelled as its
insertion-ordered element list. -/
def toggleNodeExpansion (expanded : List String) (nodeId : String) : List String :=
  if expanded.contains nodeId then expanded.filter (fun x => x != nodeId)
  else expanded ++ [nodeId]

/-- One agent-action message, as consumed by RealTimeAgentVisualization
(only the fields the visual-node builder reads are modelled). -/
structure AgentAction where
  action_type : String
  label : String
  description : String
deriving DecidableEq, Repr

/-- Visual node of RealTimeAgentVisualization (its `VisualNode` interface),
restricted to the fields the builder assigns. -/
structure VisualNode where
  id : String
  vtype : String
  label : String
  description : String
  x : ℚ
  y : ℚ
  width : ℚ
  height : ℚ
  parentId : Option String
  isInference : Bool
  isExpanded : Bool
deriving DecidableEq, Repr

/-- Large-inference test of RealTimeAgentVisualization (lines 136-140):
inference nodes whose label mentions "Master Inference" or "Comprehensive",
or whose payload carries a truthy `executive_summary` (modelled as the key
being present with a nonempty value). -/
def isLargeInference (n : AgentNode) : Bool :=
  n.type == "inference" &&
    (strIncludes n.label "Master Inference" || strIncludes n.label "Comprehensive" ||
      n.data.any (fun kv => kv.1 == "executive_summary" && kv.2 != ""))

/-- Visual node built from one agent action at loop index `i`
(RealTimeAgentVisualization lines 118-132). -/
def actionVisual (i : ℕ) (a : AgentAction) : VisualNode :=
  { id := "action_" ++ toString i, vtype := a.action_type,
    label := a.label, description := a.description,
    x := 50 + ((i % 6 : ℕ) : ℚ) * 220, y := 50 + ((i / 6 : ℕ) : ℚ) * 120,
    width := 200, height := 80,
    parentId := none, isInference := false, isExpanded := false }

/-- Visual node built from one investigation node at running index
`nodeIndex` (RealTimeAgentVisualization lines 135-156). -/
def nodeVisual (expanded : List String) (nodeIndex : ℕ) (n : AgentNode) : VisualNode :=
  { id := n.id,
    vtype := if n.type == "inference" then "inference"
      else if n.type == "analysis" then "analysis" else "data_fetch",
    label := n.label, description := n.description,
    x := 50 + ((nodeIndex % 5 : ℕ) : ℚ) * 260,
    y := 200 + ((nodeIndex / 5 : ℕ) : ℚ) * 150,
    width := if isLargeInference n then 400 else 240,
    height := if isLargeInference n then 200 else 100,
    parentId := n.parent_id,
    isInference := isLargeInference n,
    isExpanded := expanded.contains n.id }

/-- The visual-node list built by RealTimeAgentVisualization's effect
(lines 112-171): action visuals first, then node visuals, with `nodeIndex`
continuing across the two loops. -/
def buildVisualNodes (nodes : List AgentNode) (actions : List AgentAction)
    (expanded : List String) : List VisualNode :=
  forEachIdx actionVisual 0 actions
    ++ forEachIdx (nodeVisual expanded) actions.length nodes

/-- Initial / default viewport of the branched component:
`{scale: 1, translateX: 0, translateY: 0}`. -/
def defaultViewState : ViewState :=
  { scale := 1, translateX := 0, translateY := 0 }

/-- Combined session state: the page component's `nodes`, `isLoading`,
`investigationData` and WebSocket, together with the visualization
components' local state (`expandedNodes`, `showChildNodes` of the node
view; `viewState` of the branched view).  The components stay mounted for
the whole session, so their local state persists across page-level
actions. -/
structure AppState where
  nodes : List AgentNode
  isLoading : Bool
  hasInvestigation : Bool
  wsOpen : Bool
  expandedNodes : List String
  showChildNodes : List String
  viewState : ViewState
deriving DecidableEq, Repr

/-- Session reset, translated from `handleReset` (page component, lines
197-214): close the WebSocket, clear the timeout, then
`setInvestigationData(null)`, `setNodes([])`, `setIsLoading(false)`.  The
visualization components' local state is not touched (no prop or call
reaches `expandedNodes`, `showChildNodes` or `viewState`, and the
components are not unmounted). -/
def handleReset (s : AppState) : AppState :=
  { s with
    wsOpen := false
    hasInvestigation := false
    nodes := []
    isLoading := false }

/-- App-level expansion toggle: `toggleNodeExpansion` applied to the node
view's expansion set; nothing else changes. -/
def toggleExpand (s : AppState) (nodeId : String) : AppState :=
  { s with expandedNodes := toggleNodeExpansion s.expandedNodes nodeId }

/-- App-level ingestion of one WebSocket message into the node store. -/
def appIngest (s : AppState) (e : UpdateEvent) : AppState :=
  { s with nodes := ingestEvent s.nodes e }

/-- Positions part of the rendered snapshot for a given canvas height. -/
def snapshotPositions (height : ℚ) (s : AppState) : List NodePosition :=
  calculateNodePositions height s.nodes

/-- Edges part of the rendered snapshot for a given canvas height. -/
def snapshotConnections (height : ℚ) (s : AppState) : List Connection :=
  getConnections (snapshotPositions height s)

end StockViz

namespace StockViz

-- Sanity checks on small concrete inputs (scratch, mirrors the scenario of spec section 8).

def nMain : AgentNode :=
  { id := "m1", type := "data_fetch", label := "Price Data Collection",
    description := "", status := "completed", data := [],
    parent_id := none, children_ids := [], created_at := "t0" }

def nNews1 : AgentNode :=
  { id := "n1", type := "analysis", label := "News Sentiment", description := "",
    status := "completed", data := [], parent_id := some "m1",
    children_ids := [], created_at := "t1" }

def nNews2 : AgentNode :=
  { id := "n2", type := "analysis", label := "News Headlines Review", description := "",
    status := "completed", data := [], parent_id := some "m1",
    children_ids := [], created_at := "t2" }

def nValid : AgentNode :=
  { id := "v1", type := "validation", label := "Cross Check", description := "",
    status := "completed", data := [], parent_id := some "n1",
    children_ids := [], created_at := "t3" }

/-- List of the four scenario nodes: a main-flow node, two news nodes, one
validation node. -/
def cnodes : List AgentNode := [nMain, nNews1, nNews2, nValid]

/-- A main-flow node with no relationships at all (no parent, no children):
unrelated to every other node. -/
def uMain : AgentNode :=
  { id := "u-m", type := "decision", label := "Agent Decision Step",
    description := "", status := "completed", data := [],
    parent_id := none, children_ids := [], created_at := "t0" }

/-- A news-lane node with no relationships at all. -/
def uNews : AgentNode :=
  { id := "u-n", type := "analysis", label := "Headlines Scan",
    description := "", status := "completed", data := [],
    parent_id := none, children_ids := [], created_at := "t1" }

/-- A node whose label matches no classification keyword and whose kind is
none of the specially-handled ones. -/
def uOther : AgentNode :=
  { id := "u-o", type := "analysis", label := "Hello World",
    description := "", status := "completed", data := [],
    parent_id := none, children_ids := [], created_at := "t2" }

/-- Parent node carrying `children_ids = ["c"]`. -/
def wParent : AgentNode :=
  { id := "p", type := "spawn", label := "Spawn Step",
    description := "", status := "completed", data := [],
    parent_id := none, children_ids := ["c"], created_at := "t0" }

/-- Child node carrying `parent_id = "p"`. -/
def wChild : AgentNode :=
  { id := "c", type := "analysis", label := "Child Step",
    description := "", status := "completed", data := [],
    parent_id := some "p", children_ids := [], created_at := "t1" }

/-- Session state after ingesting five nodes, expanding two of them and
zooming: the input of the reset scenario. -/
def s5 : AppState :=
  { nodes := [nMain, nNews1, nNews2, nValid, uOther]
    isLoading := true
    hasInvestigation := true
    wsOpen := true
    expandedNodes := ["m1", "n1"]
    showChildNodes := []
    viewState := { scale := 2, translateX := 5, translateY := 7 } }

example : classifyNode nMain = Lane.mainFlow := by decide
example : classifyNode nNews1 = Lane.news := by decide
example : classifyNode nValid = Lane.validation := by decide
example :
    (calculateNodePositions 800 [nMain, nNews1, nNews2, nValid]).map (fun p => (p.node.id, p.level))
      = [("m1", 0), ("n1", 1), ("n2", 2), ("v1", 3)] := by decide

/-! Helper lemmas about the indexed loop and lane grouping. -/

theorem forEachIdx_mem {α β : Type} {f : ℕ → α → β} {s : ℕ} {l : List α} {b : β}
    (hb : b ∈ forEachIdx f s l) :
    ∃ i a, i < l.length ∧ a ∈ l ∧ b = f (s + i) a := by
  induction l generalizing s with
  | nil => simp [forEachIdx] at hb
  | cons x xs ih =>
    simp only [forEachIdx, List.mem_cons] at hb
    rcases hb with hb | hb
    · exact ⟨0, x, by simp, by simp, by simpa using hb⟩
    · obtain ⟨i, a, hi, ha, hba⟩ := ih hb
      refine ⟨i + 1, a, by simp only [List.length_cons]; omega, by simp [ha], ?_⟩
      rw [show s + (i + 1) = s + 1 + i by omega]
      exact hba

theorem forEachIdx_append {α β : Type} (f : ℕ → α → β) (s : ℕ) (l l' : List α) :
    forEachIdx f s (l ++ l') = forEachIdx f s l ++ forEachIdx f (s + l.length) l' := by
  induction l generalizing s with
  | nil => simp [forEachIdx]
  | cons x xs ih =>
    simp only [List.cons_append, forEachIdx, List.length_cons, List.append_eq]
    rw [ih]
    rw [show s + (xs.length + 1) = s + 1 + xs.length by omega]

theorem mem_laneNodes {l : Lane} {nodes : List AgentNode} {n : AgentNode}
    (h : n ∈ laneNodes l nodes) : n ∈ nodes ∧ classifyNode n = l := by
  simpa [laneNodes, List.mem_filter] using h

theorem laneNodes_append (l : Lane) (xs ys : List AgentNode) :
    laneNodes l (xs ++ ys) = laneNodes l xs ++ laneNodes l ys := by
  simp [laneNodes, List.filter_append]

theorem mem_mainFlowPositions {h : ℚ} {mf : List AgentNode} {p : NodePosition}
    (hp : p ∈ mainFlowPositions h mf) :
    p.node ∈ mf ∧ p.level < mf.length := by
  obtain ⟨i, a, hi, ha, rfl⟩ := forEachIdx_mem hp
  simpa using ⟨ha, hi⟩

theorem mem_branchPositions {h : ℚ} {cl : ℕ} {yOff : ℚ} {bIdx : ℕ}
    {lane : List AgentNode} {p : NodePosition}
    (hp : p ∈ branchPositions h cl yOff bIdx lane) :
    p.node ∈ lane ∧ cl ≤ p.level ∧ p.level < cl + lane.length := by
  obtain ⟨i, a, hi, ha, rfl⟩ := forEachIdx_mem hp
  simp only []
  exact ⟨ha, by omega, by omega⟩

theorem mem_validationPositions {h : ℚ} {vl : ℕ} {lane : List AgentNode} {p : NodePosition}
    (hp : p ∈ validationPositions h vl lane) :
    p.node ∈ lane ∧ p.level = vl := by
  obtain ⟨i, a, hi, ha, rfl⟩ := forEachIdx_mem hp
  exact ⟨ha, rfl⟩

theorem mem_finalPositions {h : ℚ} {vl : ℕ} {lane : List AgentNode} {p : NodePosition}
    (hp : p ∈ finalPositions h vl lane) :
    p.node ∈ lane ∧ p.level = vl + 1 := by
  obtain ⟨i, a, hi, ha, rfl⟩ := forEachIdx_mem hp
  exact ⟨ha, rfl⟩

/-- Master characterization of one entry of the computed positions array:
which lane the node was classified into and the range its level lies in. -/
theorem mem_calculateNodePositions {h : ℚ} {nodes : List AgentNode} {p : NodePosition}
    (hp : p ∈ calculateNodePositions h nodes) :
    p.node ∈ nodes ∧
    ((classifyNode p.node = Lane.mainFlow ∧ p.level < mainFlowCount nodes) ∨
     ((classifyNode p.node = Lane.news ∨ classifyNode p.node = Lane.financial ∨
        classifyNode p.node = Lane.market) ∧
        mainFlowCount nodes ≤ p.level ∧ p.level < validationLevelOf nodes) ∨
     (classifyNode p.node = Lane.validation ∧ p.level = validationLevelOf nodes) ∨
     (classifyNode p.node = Lane.finalLane ∧ p.level = validationLevelOf nodes + 1)) := by
  by_cases hne : nodes.isEmpty
  · simp [calculateNodePositions, hne] at hp
  · rw [calculateNodePositions, if_neg hne] at hp
    simp only [List.mem_append] at hp
    rcases hp with ((((hp | hp) | hp) | hp) | hp) | hp
    · obtain ⟨hmem, hlvl⟩ := mem_mainFlowPositions hp
      obtain ⟨hn, hc⟩ := mem_laneNodes hmem
      exact ⟨hn, Or.inl ⟨hc, hlvl⟩⟩
    · obtain ⟨hmem, hlo, hhi⟩ := mem_branchPositions hp
      obtain ⟨hn, hc⟩ := mem_laneNodes hmem
      refine ⟨hn, Or.inr (Or.inl ⟨Or.inl hc, hlo, ?_⟩)⟩
      have : (laneNodes Lane.news nodes).length ≤
          max 2 (max (laneNodes Lane.news nodes).length
            (max (laneNodes Lane.financial nodes).length
              (laneNodes Lane.market nodes).length)) := by omega
      simp only [validationLevelOf]
      omega
    · obtain ⟨hmem, hlo, hhi⟩ := mem_branchPositions hp
      obtain ⟨hn, hc⟩ := mem_laneNodes hmem
      refine ⟨hn, Or.inr (Or.inl ⟨Or.inr (Or.inl hc), hlo, ?_⟩)⟩
      simp only [validationLevelOf]
      omega
    · obtain ⟨hmem, hlo, hhi⟩ := mem_branchPositions hp
      obtain ⟨hn, hc⟩ := mem_laneNodes hmem
      refine ⟨hn, Or.inr (Or.inl ⟨Or.inr (Or.inr hc), hlo, ?_⟩)⟩
      simp only [validationLevelOf]
      omega
    · obtain ⟨hmem, hlvl⟩ := mem_validationPositions hp
      obtain ⟨hn, hc⟩ := mem_laneNodes hmem
      exact ⟨hn, Or.inr (Or.inr (Or.inl ⟨hc, hlvl⟩))⟩
    · obtain ⟨hmem, hlvl⟩ := mem_finalPositions hp
      obtain ⟨hn, hc⟩ := mem_laneNodes hmem
      exact ⟨hn, Or.inr (Or.inr (Or.inr ⟨hc, hlvl⟩))⟩

/-- Claim C1, counterexample: with one main-flow node (level 0) and a
news lane of two nodes (levels 1 and 2, so the maximum level assigned to
main-flow and thematic nodes is 2 and the largest thematic lane has size
2), the validation node is placed at level 3 — not at
`maxAssignedLevel + max(2, maxLaneSize) = 2 + 2 = 4`, and not at least
`max(2, laneSize) = 2` past the last thematic level 2. -/
theorem validation_reservation_claim_false :
    ((calculateNodePositions 800 cnodes).filter
        (fun p => classifyNode p.node == Lane.validation)).map (fun p => p.level) = [3] ∧
    ((calculateNodePositions 800 cnodes).filter
        (fun p => classifyNode p.node == Lane.news)).map (fun p => p.level) = [1, 2] ∧
    ((calculateNodePositions 800 cnodes).filter
        (fun p => classifyNode p.node == Lane.mainFlow)).map (fun p => p.level) = [0] ∧
    (laneNodes Lane.news cnodes).length = 2 ∧
    ¬ ((3 : ℕ) = 2 + max 2 2) ∧ ¬ ((2 : ℕ) + max 2 2 ≤ 3) := by decide

/-- Claim C1, amended: every validation-lane position is at level
`mainFlowCount + max(2, largest thematic lane size)` (the code adds the
reservation to the count of main-flow nodes, not to the maximum level
already assigned), and this level is strictly greater than the level of
every main-flow and thematic position — but only by 1 once the largest
thematic lane has 2 or more nodes. -/
theorem validation_reservation_amended (h : ℚ) (nodes : List AgentNode) (p : NodePosition)
    (hp : p ∈ calculateNodePositions h nodes)
    (hv : classifyNode p.node = Lane.validation) :
    p.level = validationLevelOf nodes ∧
    ∀ q ∈ calculateNodePositions h nodes,
      (classifyNode q.node = Lane.mainFlow ∨ classifyNode q.node = Lane.news ∨
        classifyNode q.node = Lane.financial ∨ classifyNode q.node = Lane.market) →
      q.level < p.level := by
  obtain ⟨-, hcase⟩ := mem_calculateNodePositions hp
  have hlevel : p.level = validationLevelOf nodes := by
    rcases hcase with ⟨hc, -⟩ | ⟨hc, -, -⟩ | ⟨-, hl⟩ | ⟨hc, -⟩
    · simp [hv] at hc
    · rcases hc with hc | hc | hc <;> simp [hv] at hc
    · exact hl
    · simp [hv] at hc
  refine ⟨hlevel, ?_⟩
  intro q hq hqlane
  obtain ⟨-, hqcase⟩ := mem_calculateNodePositions hq
  rw [hlevel]
  rcases hqcase with ⟨hc, hlt⟩ | ⟨hc, -, hlt⟩ | ⟨hc, -⟩ | ⟨hc, -⟩
  · have hle : mainFlowCount nodes ≤ validationLevelOf nodes := by
      simp only [validationLevelOf]; omega
    omega
  · exact hlt
  · rcases hqlane with h' | h' | h' | h' <;> simp [hc] at h'
  · rcases hqlane with h' | h' | h' | h' <;> simp [hc] at h'

/-- Claim C1, witness: the amended theorem applied to the concrete
scenario list `cnodes`, whose validation node is the fourth computed
position (level 3). -/
theorem validation_reservation_amended_witness :
    ((calculateNodePositions 800 cnodes).get ⟨3, by decide⟩).level = validationLevelOf cnodes ∧
    ∀ q ∈ calculateNodePositions 800 cnodes,
      (classifyNode q.node = Lane.mainFlow ∨ classifyNode q.node = Lane.news ∨
        classifyNode q.node = Lane.financial ∨ classifyNode q.node = Lane.market) →
      q.level < ((calculateNodePositions 800 cnodes).get ⟨3, by decide⟩).level :=
  validation_reservation_amended 800 cnodes _ (List.get_mem _ _ _) (by decide)

/-- Claim C2, counterexample: `uNews` and `uMain` are fully unrelated (no
parent or child reference in either direction, different lanes), yet
ingesting `uMain` after `uNews` moves `uNews` from level 0 to level 1,
because thematic levels are offset by the count of main-flow nodes. -/
theorem layout_monotonic_claim_false :
    uMain.parent_id = none ∧ uMain.children_ids = [] ∧
    uNews.parent_id = none ∧ uNews.children_ids = [] ∧
    ingestEvent [uNews] { type := "node_update", node := uMain } = [uNews, uMain] ∧
    ((calculateNodePositions 800 [uNews]).map fun p => (p.node.id, p.level))
      = [("u-n", 0)] ∧
    ((calculateNodePositions 800 [uNews, uMain]).map fun p => (p.node.id, p.level))
      = [("u-m", 0), ("u-n", 1)] := by decide

/-- Claim C2, amended: stability holds for main-flow nodes only — a
main-flow node's full position record (x, y, level, branch) is unchanged
by any later arrivals, since main-flow placement depends only on the
arrival-order prefix of main-flow nodes; thematic, validation and final
levels can shift when unrelated nodes are ingested later. -/
theorem layout_monotonic_amended (h : ℚ) (l l' : List AgentNode) (p : NodePosition)
    (hp : p ∈ calculateNodePositions h l)
    (hmain : classifyNode p.node = Lane.mainFlow) :
    p ∈ calculateNodePositions h (l ++ l') := by
  by_cases h0 : l.isEmpty
  · rw [calculateNodePositions, if_pos h0] at hp
    simp at hp
  · have h0' : ¬ (l ++ l').isEmpty := by
      simp only [List.isEmpty_iff, List.append_eq_nil] at h0 ⊢
      exact fun hc => h0 hc.1
    rw [calculateNodePositions, if_neg h0] at hp
    simp only [List.mem_append] at hp
    rcases hp with ((((hp | hp) | hp) | hp) | hp) | hp
    · rw [calculateNodePositions, if_neg h0']
      refine List.mem_append_left _ (List.mem_append_left _
        (List.mem_append_left _ (List.mem_append_left _ (List.mem_append_left _ ?_))))
      rw [mainFlowPositions, laneNodes_append, forEachIdx_append]
      exact List.mem_append_left _ hp
    · exact absurd (mem_laneNodes (mem_branchPositions hp).1).2 (by simp [hmain])
    · exact absurd (mem_laneNodes (mem_branchPositions hp).1).2 (by simp [hmain])
    · exact absurd (mem_laneNodes (mem_branchPositions hp).1).2 (by simp [hmain])
    · exact absurd (mem_laneNodes (mem_validationPositions hp).1).2 (by simp [hmain])
    · exact absurd (mem_laneNodes (mem_finalPositions hp).1).2 (by simp [hmain])

/-- Claim C2, witness: the main-flow node `uMain`, sole position of the
single-node layout, keeps its exact position record after the unrelated
node `uNews` arrives. -/
theorem layout_monotonic_amended_witness :
    (calculateNodePositions 800 [uMain]).get ⟨0, by decide⟩
      ∈ calculateNodePositions 800 ([uMain] ++ [uNews]) :=
  layout_monotonic_amended 800 [uMain] [uNews] _ (List.get_mem _ _ _) (by decide)

/-- Claim C3, counterexample: `ws.onmessage` appends the carried node
unconditionally, so ingesting the same `node_update` event twice yields a
store with two copies of the node and a layout with two positions, not
the single-ingestion store and layout. -/
theorem ingest_idempotent_claim_false :
    ingestEvent (ingestEvent [] { type := "node_update", node := nMain })
        { type := "node_update", node := nMain }
      ≠ ingestEvent [] { type := "node_update", node := nMain } ∧
    ((calculateNodePositions 800
        (ingestEvent (ingestEvent [] { type := "node_update", node := nMain })
          { type := "node_update", node := nMain })).map fun p => p.level) = [0, 1] ∧
    ((calculateNodePositions 800
        (ingestEvent [] { type := "node_update", node := nMain })).map
        fun p => p.level) = [0] := by decide

/-- Claim C3, amended: ingestion performs no deduplication by id — a
second ingestion of the same `node_update` event appends the node again,
growing the store by exactly one entry. -/
theorem ingest_append_amended (nodes : List AgentNode) (e : UpdateEvent)
    (he : e.type = "node_update") :
    ingestEvent (ingestEvent nodes e) e = ingestEvent nodes e ++ [e.node] ∧
    (ingestEvent (ingestEvent nodes e) e).length = (ingestEvent nodes e).length + 1 := by
  simp [ingestEvent, he]

/-- Claim C3, witness: the amended theorem at the concrete event carrying
`nMain` into the empty store. -/
theorem ingest_append_amended_witness :
    ingestEvent (ingestEvent [] { type := "node_update", node := nMain })
        { type := "node_update", node := nMain }
      = ingestEvent [] { type := "node_update", node := nMain } ++ [nMain] ∧
    (ingestEvent (ingestEvent [] { type := "node_update", node := nMain })
        { type := "node_update", node := nMain }).length
      = (ingestEvent [] { type := "node_update", node := nMain }).length + 1 :=
  ingest_append_amended [] { type := "node_update", node := nMain } rfl

/-- Claim C4, counterexample: the node `uOther` (label "Hello World",
kind `analysis`) matches no classification rule; it is ingested but the
computed positions array is empty — the node is omitted, not assigned a
default lane. -/
theorem default_lane_claim_false :
    classifyNode uOther = Lane.unmatched ∧
    calculateNodePositions 800 [uOther] = [] := by decide

/-- Claim C4, amended: only nodes matching some classification rule are
positioned — every entry of the computed positions array has a node whose
classification is one of the six lanes, never `unmatched`; unmatched
nodes are dropped from the layout entirely. -/
theorem positioned_nodes_matched_amended (h : ℚ) (nodes : List AgentNode) (p : NodePosition)
    (hp : p ∈ calculateNodePositions h nodes) :
    classifyNode p.node ≠ Lane.unmatched := by
  obtain ⟨-, hcase⟩ := mem_calculateNodePositions hp
  rcases hcase with ⟨hc, -⟩ | ⟨hc, -, -⟩ | ⟨hc, -⟩ | ⟨hc, -⟩
  · simp [hc]
  · rcases hc with hc | hc | hc <;> simp [hc]
  · simp [hc]
  · simp [hc]

/-- Claim C4, witness: the amended theorem at the first computed position
of the scenario layout (the main-flow node `nMain`). -/
theorem positioned_nodes_matched_amended_witness :
    classifyNode ((calculateNodePositions 800 cnodes).get ⟨0, by decide⟩).node ≠ Lane.unmatched :=
  positioned_nodes_matched_amended 800 cnodes _ (List.get_mem _ _ _)

/-- Claim C5, counterexample: after five ingestions, two expansions and a
zoom (state `s5`), `handleReset` leaves the expansion set `["m1", "n1"]`
(not empty) and the viewport at scale 2 (not the default 1): the
component-local expansion and viewport state survive the reset. -/
theorem reset_clears_all_claim_false :
    (handleReset s5).expandedNodes = ["m1", "n1"] ∧
    (handleReset s5).expandedNodes ≠ [] ∧
    (handleReset s5).viewState = s5.viewState ∧
    s5.viewState.scale = 2 ∧ defaultViewState.scale = 1 ∧ (2 : ℚ) ≠ 1 :=
  ⟨rfl, by decide, rfl, rfl, rfl, by norm_num⟩

/-- Claim C5, amended: `handleReset` clears the node store (so the
recomputed positions and connections are empty) and the loading and
investigation flags, but leaves the expansion sets and the viewport state
exactly as they were — the reset is partial, not atomic over all core
state. -/
theorem reset_incomplete_amended (height : ℚ) (s : AppState) :
    (handleReset s).nodes = [] ∧
    snapshotPositions height (handleReset s) = [] ∧
    snapshotConnections height (handleReset s) = [] ∧
    (handleReset s).isLoading = false ∧
    (handleReset s).hasInvestigation = false ∧
    (handleReset s).expandedNodes = s.expandedNodes ∧
    (handleReset s).showChildNodes = s.showChildNodes ∧
    (handleReset s).viewState = s.viewState := by
  refine ⟨rfl, ?_, ?_, rfl, rfl, rfl, rfl, rfl⟩
  · simp [snapshotPositions, handleReset, calculateNodePositions]
  · simp [snapshotConnections, snapshotPositions, handleReset, calculateNodePositions,
      getConnections]

/-- Bounds preservation for one zoom operation of the branched component:
a scale within `[0.1, 3]` stays within `[0.1, 3]`. -/
theorem applyZoomOp_bounds (s : ViewState) (op : ZoomOp)
    (h1 : 1/10 ≤ s.scale) (h2 : s.scale ≤ 3) :
    1/10 ≤ (applyZoomOp s op).scale ∧ (applyZoomOp s op).scale ≤ 3 := by
  rcases op with d | _ | _
  · simp only [applyZoomOp, handleWheel]
    exact ⟨le_max_left _ _, max_le (by norm_num) (min_le_left _ _)⟩
  · simp only [applyZoomOp, zoomIn]
    exact ⟨le_min (by norm_num) (by linarith), min_le_left _ _⟩
  · simp only [applyZoomOp, zoomOut]
    exact ⟨le_max_left _ _, max_le (by norm_num) (by linarith)⟩

/-- Bounds preservation for a whole sequence of branched zoom
operations. -/
theorem applyZoomOps_bounds (ops : List ZoomOp) :
    ∀ s : ViewState, 1/10 ≤ s.scale → s.scale ≤ 3 →
      1/10 ≤ (applyZoomOps s ops).scale ∧ (applyZoomOps s ops).scale ≤ 3 := by
  induction ops with
  | nil => exact fun s h1 h2 => ⟨h1, h2⟩
  | cons op rest ih =>
    intro s h1 h2
    have h := applyZoomOp_bounds s op h1 h2
    simpa only [applyZoomOps, List.foldl_cons] using ih (applyZoomOp s op) h.1 h.2

/-- Bounds preservation for a sequence of RealTime wheel events: a scale
within `[0.2, 2]` stays within `[0.2, 2]`. -/
theorem rtApplyWheels_bounds (ds : List Bool) :
    ∀ t : ViewState, 1/5 ≤ t.scale → t.scale ≤ 2 →
      1/5 ≤ (rtApplyWheels t ds).scale ∧ (rtApplyWheels t ds).scale ≤ 2 := by
  induction ds with
  | nil => exact fun t h1 h2 => ⟨h1, h2⟩
  | cons d rest ih =>
    intro t h1 h2
    have h : 1/5 ≤ (rtHandleWheel d t).scale ∧ (rtHandleWheel d t).scale ≤ 2 := by
      simp only [rtHandleWheel]
      exact ⟨le_max_left _ _, max_le (by norm_num) (min_le_left _ _)⟩
    simpa only [rtApplyWheels, List.foldl_cons] using ih (rtHandleWheel d t) h.1 h.2

/-- Claim C6: starting from a scale within the configured bounds, any
sequence of wheel zooms, zoom-in and zoom-out operations of the branched
component keeps the scale within `[0.1, 3]`, and any sequence of
RealTime wheel zooms keeps the scale within `[0.2, 2]`. -/
theorem zoom_scale_clamped (s t : ViewState) (ops : List ZoomOp) (ds : List Bool)
    (hs1 : 1/10 ≤ s.scale) (hs2 : s.scale ≤ 3)
    (ht1 : 1/5 ≤ t.scale) (ht2 : t.scale ≤ 2) :
    (1/10 ≤ (applyZoomOps s ops).scale ∧ (applyZoomOps s ops).scale ≤ 3) ∧
    (1/5 ≤ (rtApplyWheels t ds).scale ∧ (rtApplyWheels t ds).scale ≤ 2) :=
  ⟨applyZoomOps_bounds ops s hs1 hs2, rtApplyWheels_bounds ds t ht1 ht2⟩

/-- Claim C6, witness: seven consecutive zoom-ins from the default
viewport (scale 1) stay at or below 3, and three wheel zoom-outs stay at
or above 0.2. -/
theorem zoom_scale_clamped_witness :
    ((1 : ℚ)/10 ≤ (applyZoomOps defaultViewState
        [ZoomOp.zin, ZoomOp.zin, ZoomOp.zin, ZoomOp.zin, ZoomOp.zin, ZoomOp.zin,
          ZoomOp.zin]).scale ∧
      (applyZoomOps defaultViewState
        [ZoomOp.zin, ZoomOp.zin, ZoomOp.zin, ZoomOp.zin, ZoomOp.zin, ZoomOp.zin,
          ZoomOp.zin]).scale ≤ 3) ∧
    ((1 : ℚ)/5 ≤ (rtApplyWheels defaultViewState [true, true, true]).scale ∧
      (rtApplyWheels defaultViewState [true, true, true]).scale ≤ 2) :=
  zoom_scale_clamped defaultViewState defaultViewState
    [ZoomOp.zin, ZoomOp.zin, ZoomOp.zin, ZoomOp.zin, ZoomOp.zin, ZoomOp.zin, ZoomOp.zin]
    [true, true, true]
    (by norm_num [defaultViewState]) (by norm_num [defaultViewState])
    (by norm_num [defaultViewState]) (by norm_num [defaultViewState])

/-- Endpoint resolution for an arbitrary positions array: every
connection produced by `getConnections` takes both of its endpoints from
entries of that array. -/
theorem getConnections_endpoints (positions : List NodePosition) (c : Connection)
    (hc : c ∈ getConnections positions) :
    (∃ p ∈ positions, c.fromPt = ⟨p.x, p.y⟩) ∧
    (∃ q ∈ positions, c.toPt = ⟨q.x, q.y⟩) := by
  simp only [getConnections, List.mem_flatMap] at hc
  obtain ⟨p, hp, hcp⟩ := hc
  simp only [connectionsFor, List.mem_append] at hcp
  rcases hcp with hcp | hcp
  · rcases hpid : p.node.parent_id with _ | pid
    · simp only [hpid] at hcp
      simp at hcp
    · simp only [hpid] at hcp
      rcases hfind : positions.find? (fun q => q.node.id == pid) with _ | parentPos
      · simp only [hfind] at hcp
        simp at hcp
      · simp only [hfind] at hcp
        simp only [List.mem_singleton] at hcp
        subst hcp
        exact ⟨⟨parentPos, List.mem_of_find?_eq_some hfind, rfl⟩, ⟨p, hp, rfl⟩⟩
  · simp only [List.mem_filterMap] at hcp
    obtain ⟨cid, hcid, hmap⟩ := hcp
    rcases hfind : positions.find? (fun q => q.node.id == cid) with _ | childPos
    · simp only [hfind] at hmap
      simp at hmap
    · simp only [hfind] at hmap
      simp only [Option.map_some', Option.some.injEq] at hmap
      subst hmap
      exact ⟨⟨p, hp, rfl⟩, ⟨childPos, List.mem_of_find?_eq_some hfind, rfl⟩⟩

/-- Claim C7: every connection produced by edge resolution over a
computed layout has both endpoints equal to the coordinates of some
currently positioned node — no partial or dangling edge is emitted. -/
theorem edges_endpoints_resolved (height : ℚ) (nodes : List AgentNode) (c : Connection)
    (hc : c ∈ getConnections (calculateNodePositions height nodes)) :
    (∃ p ∈ calculateNodePositions height nodes, c.fromPt = ⟨p.x, p.y⟩) ∧
    (∃ q ∈ calculateNodePositions height nodes, c.toPt = ⟨q.x, q.y⟩) :=
  getConnections_endpoints (calculateNodePositions height nodes) c hc

/-- Claim C7, witness: the first connection of the scenario layout (the
parent edge from `nMain` to `nNews1`) resolves both endpoints against
computed positions. -/
theorem edges_endpoints_resolved_witness :
    (∃ p ∈ calculateNodePositions 800 cnodes,
      ((getConnections (calculateNodePositions 800 cnodes)).get ⟨0, by decide⟩).fromPt
        = ⟨p.x, p.y⟩) ∧
    (∃ q ∈ calculateNodePositions 800 cnodes,
      ((getConnections (calculateNodePositions 800 cnodes)).get ⟨0, by decide⟩).toPt
        = ⟨q.x, q.y⟩) :=
  edges_endpoints_resolved 800 cnodes _ (List.get_mem _ _ _)

/-- Identity and coordinates of RealTime visual nodes do not depend on
the expansion set. -/
theorem forEachIdx_nodeVisual_xy (l : List AgentNode) (s : ℕ) (e1 e2 : List String) :
    (forEachIdx (nodeVisual e1) s l).map (fun v => (v.id, v.x, v.y))
      = (forEachIdx (nodeVisual e2) s l).map (fun v => (v.id, v.x, v.y)) := by
  induction l generalizing s with
  | nil => rfl
  | cons x xs ih =>
    simp only [forEachIdx, List.map_cons, ih]
    rfl

/-- Claim C8: toggling one node's expansion changes no computed layout
position (the branched layout reads only the node list), and in the
RealTime view it changes no visual node's identity or x/y coordinates. -/
theorem expansion_frame (height : ℚ) (s : AppState) (a : String)
    (actions : List AgentAction) :
    snapshotPositions height (toggleExpand s a) = snapshotPositions height s ∧
    (buildVisualNodes s.nodes actions (toggleNodeExpansion s.expandedNodes a)).map
        (fun v => (v.id, v.x, v.y))
      = (buildVisualNodes s.nodes actions s.expandedNodes).map
        (fun v => (v.id, v.x, v.y)) := by
  refine ⟨rfl, ?_⟩
  simp only [buildVisualNodes, List.map_append]
  rw [forEachIdx_nodeVisual_xy s.nodes actions.length
    (toggleNodeExpansion s.expandedNodes a) s.expandedNodes]

/-- Claim C9: for a parent `p` carrying `children_ids = [c.id]` and a
child `c` carrying `parent_id = p.id`, ingesting the two arrival events
in either order yields `getChildNodes p.id = [c]`. -/
theorem children_order_independent (p c : AgentNode)
    (_hch : p.children_ids = [c.id])
    (hcp : c.parent_id = some p.id)
    (hpp : p.parent_id ≠ some p.id) :
    getChildNodes (ingestEvent (ingestEvent [] ⟨"node_update", p⟩)
        ⟨"node_update", c⟩) p.id = [c] ∧
    getChildNodes (ingestEvent (ingestEvent [] ⟨"node_update", c⟩)
        ⟨"node_update", p⟩) p.id = [c] := by
  have h1 : (p.parent_id == some p.id) = false := by simpa using hpp
  have h2 : (c.parent_id == some p.id) = true := by simpa using hcp
  constructor <;> simp [ingestEvent, getChildNodes, List.filter, h1, h2]

/-- Claim C9, witness: the concrete pair `wParent` / `wChild`, ingested
in both orders. -/
theorem children_order_independent_witness :
    getChildNodes (ingestEvent (ingestEvent [] ⟨"node_update", wParent⟩)
        ⟨"node_update", wChild⟩) wParent.id = [wChild] ∧
    getChildNodes (ingestEvent (ingestEvent [] ⟨"node_update", wChild⟩)
        ⟨"node_update", wParent⟩) wParent.id = [wChild] :=
  children_order_independent wParent wChild (by decide) (by decide) (by decide)

/-- Claim C10: every zoom operation (branched wheel, zoom-in button,
zoom-out button, RealTime wheel) leaves `translateX` and `translateY`
unchanged — zooming only rescales about the canvas origin; no focal
point enters any handler. -/
theorem zoom_only_scale (s : ViewState) (d : Bool) :
    (handleWheel d s).translateX = s.translateX ∧
    (handleWheel d s).translateY = s.translateY ∧
    (zoomIn s).translateX = s.translateX ∧
    (zoomIn s).translateY = s.translateY ∧
    (zoomOut s).translateX = s.translateX ∧
    (zoomOut s).translateY = s.translateY ∧
    (rtHandleWheel d s).translateX = s.translateX ∧
    (rtHandleWheel d s).translateY = s.translateY :=
  ⟨rfl, rfl, rfl, rfl, rfl, rfl, rfl, rfl⟩

end StockViz
